import Mathlib

/-!
Verification of the `systemd-service` crate: a shallow embedding of
`src/error.rs`, `src/utils.rs` and `src/lib.rs`, together with theorems
settling the specified properties of the descriptor builder and of the
install/enable/start orchestration.

External effects (the filesystem, `geteuid`, spawning `systemctl`) are
embedded as an explicit `World` state threaded through the operations; the
descriptor builder itself is a pure function, exactly as in the source.
-/

set_option maxHeartbeats 1000000

namespace SystemdSvc

/-- Error taxonomy of the crate (src/error.rs): `Io` wraps filesystem and
process-spawn failures (the `From<std::io::Error>` impl stringifies the
OS error), `Permission` a failed privilege check, `Command` a non-zero
exit status of a control-plane invocation. -/
inductive Error where
  | Io (msg : String)
  | Permission (msg : String)
  | Command (msg : String)
  deriving DecidableEq, Repr

/-- Configuration of one systemd service (src/lib.rs `ServiceConfig`).
`restart_sec` is a Rust `u32`; the code only ever renders it in decimal
(never does arithmetic on it), so it is embedded as `Nat`. -/
structure ServiceConfig where
  name : String
  description : String
  exec_start : String
  working_directory : Option String
  user : Option String
  group : Option String
  restart : Option String
  restart_sec : Option Nat
  wanted_by : Option String
  environment : Option (List (String × String))
  after : Option (List String)
  log_file : Option String
  deriving DecidableEq, Repr

/-- `impl Default for ServiceConfig` (src/lib.rs). -/
def ServiceConfig.default : ServiceConfig :=
  { name := ""
    description := ""
    exec_start := ""
    working_directory := none
    user := none
    group := none
    restart := some "always"
    restart_sec := some 5
    wanted_by := some "multi-user.target"
    environment := none
    after := none
    log_file := none }

/-- `ServiceConfig::new`: the three required fields, the rest from
`Default` (src/lib.rs). -/
def ServiceConfig.new (name exec_start description : String) : ServiceConfig :=
  { ServiceConfig.default with
    name := name
    description := description
    exec_start := exec_start }

/-- Builder method `working_directory` (renamed: the field accessor
already takes the source name). -/
def ServiceConfig.with_working_directory (c : ServiceConfig) (dir : String) : ServiceConfig :=
  { c with working_directory := some dir }

/-- Builder method `user`. -/
def ServiceConfig.with_user (c : ServiceConfig) (user : String) : ServiceConfig :=
  { c with user := some user }

/-- Builder method `group`. -/
def ServiceConfig.with_group (c : ServiceConfig) (group : String) : ServiceConfig :=
  { c with group := some group }

/-- Builder method `restart`. -/
def ServiceConfig.with_restart (c : ServiceConfig) (restart : String) : ServiceConfig :=
  { c with restart := some restart }

/-- Builder method `restart_sec`. -/
def ServiceConfig.with_restart_sec (c : ServiceConfig) (sec : Nat) : ServiceConfig :=
  { c with restart_sec := some sec }

/-- Builder method `wanted_by`. -/
def ServiceConfig.with_wanted_by (c : ServiceConfig) (target : String) : ServiceConfig :=
  { c with wanted_by := some target }

/-- Builder method `environment`. -/
def ServiceConfig.with_environment (c : ServiceConfig) (env : List (String × String)) : ServiceConfig :=
  { c with environment := some env }

/-- Builder method `after`. -/
def ServiceConfig.with_after (c : ServiceConfig) (after : List String) : ServiceConfig :=
  { c with after := some after }

/-- Builder method `log_file`. -/
def ServiceConfig.with_log_file (c : ServiceConfig) (file_path : String) : ServiceConfig :=
  { c with log_file := some file_path }

/-- `SystemdService` (src/lib.rs): owns one configuration. -/
structure SystemdService where
  config : ServiceConfig
  deriving DecidableEq, Repr

/-- `SystemdService::new`. -/
def SystemdService.new (config : ServiceConfig) : SystemdService :=
  { config := config }

/-- `SystemdService::generate` (src/lib.rs): builds the unit-file text by
successive `push_str` calls; each `let content :=` mirrors one `push_str`
(or one conditional block) of the source. -/
def SystemdService.generate (s : SystemdService) : String :=
  let content := ""
  let content := content ++ "[Unit]\n"
  let content := content ++ ("Description=" ++ s.config.description ++ "\n")
  let content :=
    match s.config.after with
    | some after =>
        if !after.isEmpty then content ++ ("After=" ++ String.intercalate " " after ++ "\n")
        else content
    | none => content
  let content := content ++ "\n"
  let content := content ++ "[Service]\n"
  let content :=
    match s.config.working_directory with
    | some working_directory => content ++ ("WorkingDirectory=" ++ working_directory ++ "\n")
    | none => content
  let content :=
    match s.config.user with
    | some user => content ++ ("User=" ++ user ++ "\n")
    | none => content
  let content :=
    match s.config.group with
    | some group => content ++ ("Group=" ++ group ++ "\n")
    | none => content
  let content :=
    match s.config.restart with
    | some restart => content ++ ("Restart=" ++ restart ++ "\n")
    | none => content
  let content :=
    match s.config.restart_sec with
    | some restart_sec => content ++ ("RestartSec=" ++ toString restart_sec ++ "\n")
    | none => content
  let content := content ++ ("ExecStart=" ++ s.config.exec_start ++ "\n")
  let content :=
    match s.config.log_file with
    | some log_file =>
        content ++ ("StandardOutput=append:" ++ log_file ++ "\n") ++ "StandardError=inherit\n"
    | none => content
  let content :=
    match s.config.environment with
    | some environment =>
        if !environment.isEmpty then
          environment.foldl
            (fun c kv => c ++ ("Environment=\"" ++ kv.1 ++ "=" ++ kv.2 ++ "\"\n")) content
        else content
    | none => content
  let content := content ++ "\n"
  let content := content ++ "[Install]\n"
  let content :=
    match s.config.wanted_by with
    | some wanted_by => content ++ ("WantedBy=" ++ wanted_by ++ "\n")
    | none => content
  content

/-- Result of spawning one external process: either the spawn itself
fails with an OS error (Rust `std::io::Error`), or the process runs to
completion and exits, `success` reporting `ExitStatus::success()`. -/
inductive SpawnResult where
  | spawnFailure (msg : String)
  | exited (success : Bool)
  deriving DecidableEq, Repr

/-- The environment the crate acts on: the platform flag and effective
uid behind `is_root`, the filesystem as an association list from path to
contents, the OS behavior of `File::create`/`write_all` per path
(`some msg` = the write fails with that `std::io::Error`), the behavior
of spawning `systemctl` per argv, and two observable traces: lines
printed by `println!` and argvs of attempted `systemctl` invocations. -/
structure World where
  unix : Bool
  euid : Nat
  files : List (String × String)
  createFailure : String → Option String
  run : List String → SpawnResult
  output : List String
  invoked : List (List String)

/-- src/utils.rs `is_root`: on `cfg(unix)` compares `geteuid()` with 0;
on other platforms returns `false` unconditionally. -/
def is_root (w : World) : Bool :=
  if w.unix then w.euid == 0 else false

/-- src/lib.rs `validate_root_privileges`. -/
def validate_root_privileges (w : World) : Except Error Unit :=
  if !is_root w then Except.error (Error.Permission "need root privileges")
  else Except.ok ()

/-- Filesystem lookup: the contents at `p`, if a file exists there. -/
def lookupFile : List (String × String) → String → Option String
  | [], _ => none
  | (q, c) :: rest, p => if q = p then some c else lookupFile rest p

/-- Filesystem update: create the file at `p` with contents `c`, or
truncate and rewrite it if it exists (the semantics of `File::create`). -/
def setFile : List (String × String) → String → String → List (String × String)
  | [], p, c => [(p, c)]
  | (q, d) :: rest, p, c => if q = p then (p, c) :: rest else (q, d) :: setFile rest p c

/-- src/lib.rs `write_service_file`:
`File::create(path)?.write_all(content.as_bytes())?` then a confirmation
print. `w.createFailure path` models the OS failing the create or the
write; either failure surfaces as `Error::Io` via `From<std::io::Error>`. -/
def write_service_file (content : String) (path : String) (w : World) :
    Except Error Unit × World :=
  match w.createFailure path with
  | some msg => (Except.error (Error.Io msg), w)
  | none =>
      (Except.ok (),
        { w with
          files := setFile w.files path content
          output := w.output ++ ["Service file created: " ++ path] })

/-- `SystemdService::write`. -/
def SystemdService.write (s : SystemdService) (path : String) (w : World) :
    Except Error Unit × World :=
  match validate_root_privileges w with
  | Except.error e => (Except.error e, w)
  | Except.ok _ =>
      let content := s.generate
      write_service_file content path w

/-- One `Command::new("systemctl").arg(...).status()` call. The argv
(after the program name) is appended to the `invoked` trace; the
environment decides whether the spawn fails (a `std::io::Error`, lifted
by `?` through `From<std::io::Error>` to `Error::Io`) or the process
exits with some status. -/
def systemctl_status (args : List String) (w : World) :
    Except Error Bool × World :=
  let w1 := { w with invoked := w.invoked ++ [args] }
  match w.run args with
  | SpawnResult.spawnFailure msg => (Except.error (Error.Io msg), w1)
  | SpawnResult.exited ok => (Except.ok ok, w1)

/-- `SystemdService::enable`: `systemctl enable <name>`. -/
def SystemdService.enable (s : SystemdService) (w : World) :
    Except Error Unit × World :=
  match validate_root_privileges w with
  | Except.error e => (Except.error e, w)
  | Except.ok _ =>
      match systemctl_status ["enable", s.config.name] w with
      | (Except.error e, w1) => (Except.error e, w1)
      | (Except.ok ok, w1) =>
          if !ok then
            (Except.error (Error.Command ("enable \x27" ++ s.config.name ++ "\x27 failed")), w1)
          else
            (Except.ok (),
              { w1 with output := w1.output ++ ["Service \x27" ++ s.config.name ++ "\x27 enabled"] })

/-- `SystemdService::start`: `systemctl start <name>`. -/
def SystemdService.start (s : SystemdService) (w : World) :
    Except Error Unit × World :=
  match validate_root_privileges w with
  | Except.error e => (Except.error e, w)
  | Except.ok _ =>
      match systemctl_status ["start", s.config.name] w with
      | (Except.error e, w1) => (Except.error e, w1)
      | (Except.ok ok, w1) =>
          if !ok then
            (Except.error (Error.Command ("start \x27" ++ s.config.name ++ "\x27 failed")), w1)
          else
            (Except.ok (),
              { w1 with output := w1.output ++ ["Service \x27" ++ s.config.name ++ "\x27 start"] })

/-- `SystemdService::get_service_file_path`: the conventional path, or
`Error::Io` if a file already exists there (the anti-clobber guard). -/
def SystemdService.get_service_file_path (s : SystemdService) (w : World) :
    Except Error String :=
  let path := "/etc/systemd/system/" ++ s.config.name ++ ".service"
  if (lookupFile w.files path).isSome then
    Except.error (Error.Io "Service file exists")
  else Except.ok path

/-- `SystemdService::reload_systemd`: `systemctl daemon-reload`. -/
def SystemdService.reload_systemd (w : World) : Except Error Unit × World :=
  match validate_root_privileges w with
  | Except.error e => (Except.error e, w)
  | Except.ok _ =>
      match systemctl_status ["daemon-reload"] w with
      | (Except.error e, w1) => (Except.error e, w1)
      | (Except.ok ok, w1) =>
          if !ok then
            (Except.error (Error.Command "systemctl daemon-reload failed"), w1)
          else
            (Except.ok (), { w1 with output := w1.output ++ ["systemd 已重新加载"] })

/-- `SystemdService::install_and_enable`: resolve the path (failing on
collision), write, `daemon-reload`, `enable`, each step short-circuiting
with `?`. -/
def SystemdService.install_and_enable (s : SystemdService) (w : World) :
    Except Error Unit × World :=
  match s.get_service_file_path w with
  | Except.error e => (Except.error e, w)
  | Except.ok path =>
      match s.write path w with
      | (Except.error e, w1) => (Except.error e, w1)
      | (Except.ok _, w1) =>
          match SystemdService.reload_systemd w1 with
          | (Except.error e, w2) => (Except.error e, w2)
          | (Except.ok _, w2) =>
              match s.enable w2 with
              | (Except.error e, w3) => (Except.error e, w3)
              | (Except.ok _, w3) =>
                  (Except.ok (),
                    { w3 with
                      output := w3.output ++
                        ["Service \x27" ++ s.config.name ++ "\x27 已安装并启用"] })

/-! ### Lines of a descriptor text -/

/-- Split a character list at every newline. A text that ends in a
newline yields a trailing empty line. -/
def splitLines : List Char → List (List Char)
  | [] => [[]]
  | c :: rest =>
    if c = '\n' then [] :: splitLines rest
    else
      match splitLines rest with
      | l :: ls => (c :: l) :: ls
      | [] => [[c]]

/-- The lines of a string. -/
def descriptorLines (s : String) : List String :=
  (splitLines s.data).map fun l => String.mk l

/-- `line` occurs as one full line of `s`. -/
def hasLine (s line : String) : Prop :=
  line ∈ descriptorLines s

instance (s line : String) : Decidable (hasLine s line) :=
  inferInstanceAs (Decidable (line ∈ descriptorLines s))

theorem splitLines_ne_nil (l : List Char) : splitLines l ≠ [] := by
  induction l with
  | nil => simp [splitLines]
  | cons c rest ih =>
    simp only [splitLines]
    split
    · simp
    · cases h : splitLines rest with
      | nil => simp
      | cons a as => simp [h]

theorem splitLines_terminated (l : List Char) (hl : '\n' ∉ l) (rest : List Char) :
    splitLines (l ++ '\n' :: rest) = l :: splitLines rest := by
  induction l with
  | nil => simp [splitLines]
  | cons c t ih =>
    have hc : c ≠ '\n' := fun h => hl (h ▸ List.mem_cons_self ..)
    have ht : '\n' ∉ t := fun h => hl (List.mem_cons_of_mem _ h)
    simp only [List.cons_append, splitLines, if_neg hc, List.append_eq]
    rw [ih ht]

/-- Flatten a list of lines, terminating each with a newline, in front
of `rest`. -/
def joinLines : List (List Char) → List Char → List Char
  | [], rest => rest
  | l :: ls, rest => l ++ '\n' :: joinLines ls rest

theorem splitLines_joinLines (ls : List (List Char)) (h : ∀ l ∈ ls, '\n' ∉ l)
    (rest : List Char) :
    splitLines (joinLines ls rest) = ls ++ splitLines rest := by
  induction ls with
  | nil => rfl
  | cons l t ih =>
    have h1 : '\n' ∉ l := h l (List.mem_cons_self ..)
    have h2 : ∀ x ∈ t, '\n' ∉ x := fun x hx => h x (List.mem_cons_of_mem _ hx)
    simp only [joinLines, splitLines_terminated l h1, ih h2, List.cons_append]

theorem joinLines_append (a b : List (List Char)) (rest : List Char) :
    joinLines (a ++ b) rest = joinLines a (joinLines b rest) := by
  induction a with
  | nil => rfl
  | cons l t ih => simp [joinLines, ih, List.append_assoc]

theorem joinLines_eq_append (ls : List (List Char)) (rest : List Char) :
    joinLines ls rest = joinLines ls [] ++ rest := by
  induction ls with
  | nil => rfl
  | cons l t ih => simp [joinLines, ih, List.append_assoc]

theorem joinLines_append_left (ls : List (List Char)) (r rest : List Char) :
    joinLines ls r ++ rest = joinLines ls (r ++ rest) := by
  induction ls with
  | nil => rfl
  | cons l t ih => simp [joinLines, ih, List.append_assoc]

/-! ### The lines `generate` emits -/

/-- One optional `Key=value` line. -/
def optLine (key : String) (o : Option String) : List String :=
  match o with
  | some v => [key ++ v]
  | none => []

/-- The `After=` line: entries space-joined, only when non-empty. -/
def afterLines (o : Option (List String)) : List String :=
  match o with
  | some after => if !after.isEmpty then ["After=" ++ String.intercalate " " after] else []
  | none => []

/-- The `RestartSec=` line. -/
def secLines (o : Option Nat) : List String :=
  match o with
  | some n => ["RestartSec=" ++ toString n]
  | none => []

/-- The `StandardOutput=`/`StandardError=` pair emitted for a log file. -/
def logLines (o : Option String) : List String :=
  match o with
  | some f => ["StandardOutput=append:" ++ f, "StandardError=inherit"]
  | none => []

/-- One `Environment="KEY=VALUE"` line. -/
def envLine (kv : String × String) : String :=
  "Environment=\"" ++ kv.1 ++ "=" ++ kv.2 ++ "\""

/-- The `Environment=` lines, one per pair, in input order. -/
def envLines (o : Option (List (String × String))) : List String :=
  match o with
  | some environment => if !environment.isEmpty then environment.map envLine else []
  | none => []

/-- The full list of lines `SystemdService::generate` emits, in emission
order; each becomes one newline-terminated line of the text. -/
def genLines (c : ServiceConfig) : List String :=
  ["[Unit]", "Description=" ++ c.description]
  ++ afterLines c.after
  ++ ["", "[Service]"]
  ++ optLine "WorkingDirectory=" c.working_directory
  ++ optLine "User=" c.user
  ++ optLine "Group=" c.group
  ++ optLine "Restart=" c.restart
  ++ secLines c.restart_sec
  ++ ["ExecStart=" ++ c.exec_start]
  ++ logLines c.log_file
  ++ envLines c.environment
  ++ ["", "[Install]"]
  ++ optLine "WantedBy=" c.wanted_by

/-! ### Piecewise view of `generate`

`gUnit` through `gWanted` name the successive values of `content` in
`SystemdService::generate`; `generate_eq_pieces` states (definitionally)
that `generate` is the last of them. -/

def gUnit (c : ServiceConfig) : String :=
  let content := ""
  let content := content ++ "[Unit]\n"
  let content := content ++ ("Description=" ++ c.description ++ "\n")
  content

def gAfter (c : ServiceConfig) : String :=
  match c.after with
  | some after =>
      if !after.isEmpty then gUnit c ++ ("After=" ++ String.intercalate " " after ++ "\n")
      else gUnit c
  | none => gUnit c

def gSvcHeader (c : ServiceConfig) : String :=
  gAfter c ++ "\n" ++ "[Service]\n"

def gWd (c : ServiceConfig) : String :=
  match c.working_directory with
  | some working_directory => gSvcHeader c ++ ("WorkingDirectory=" ++ working_directory ++ "\n")
  | none => gSvcHeader c

def gUser (c : ServiceConfig) : String :=
  match c.user with
  | some user => gWd c ++ ("User=" ++ user ++ "\n")
  | none => gWd c

def gGroup (c : ServiceConfig) : String :=
  match c.group with
  | some group => gUser c ++ ("Group=" ++ group ++ "\n")
  | none => gUser c

def gRestart (c : ServiceConfig) : String :=
  match c.restart with
  | some restart => gGroup c ++ ("Restart=" ++ restart ++ "\n")
  | none => gGroup c

def gSec (c : ServiceConfig) : String :=
  match c.restart_sec with
  | some restart_sec => gRestart c ++ ("RestartSec=" ++ toString restart_sec ++ "\n")
  | none => gRestart c

def gExec (c : ServiceConfig) : String :=
  gSec c ++ ("ExecStart=" ++ c.exec_start ++ "\n")

def gLog (c : ServiceConfig) : String :=
  match c.log_file with
  | some log_file =>
      gExec c ++ ("StandardOutput=append:" ++ log_file ++ "\n") ++ "StandardError=inherit\n"
  | none => gExec c

def gEnv (c : ServiceConfig) : String :=
  match c.environment with
  | some environment =>
      if !environment.isEmpty then
        environment.foldl
          (fun cc kv => cc ++ ("Environment=\"" ++ kv.1 ++ "=" ++ kv.2 ++ "\"\n")) (gLog c)
      else gLog c
  | none => gLog c

def gInstall (c : ServiceConfig) : String :=
  gEnv c ++ "\n" ++ "[Install]\n"

def gWanted (c : ServiceConfig) : String :=
  match c.wanted_by with
  | some wanted_by => gInstall c ++ ("WantedBy=" ++ wanted_by ++ "\n")
  | none => gInstall c

theorem generate_eq_pieces (c : ServiceConfig) :
    (SystemdService.new c).generate = gWanted c := rfl

/-! ### Data of each piece, as newline-terminated lines -/

theorem envFold_data (l : List (String × String)) (acc : String) :
    (l.foldl (fun cc kv => cc ++ ("Environment=\"" ++ kv.1 ++ "=" ++ kv.2 ++ "\"\n")) acc).data
      = acc.data ++ joinLines ((l.map envLine).map String.data) [] := by
  induction l generalizing acc with
  | nil => simp [joinLines]
  | cons kv t ih =>
    simp only [List.foldl_cons, ih, List.map_cons, joinLines, envLine,
      String.data_append, List.append_assoc]
    rfl

theorem gUnit_data (c : ServiceConfig) :
    (gUnit c).data
      = joinLines ((["[Unit]", "Description=" ++ c.description]).map String.data) [] := by
  simp only [gUnit, joinLines, List.map_cons, List.map_nil,
    String.data_append, List.append_assoc]
  rfl

theorem gAfter_data (c : ServiceConfig) :
    (gAfter c).data
      = (gUnit c).data ++ joinLines ((afterLines c.after).map String.data) [] := by
  cases h : c.after with
  | none => simp [gAfter, afterLines, h, joinLines]
  | some a =>
    by_cases ha : a.isEmpty
    · simp [gAfter, afterLines, h, ha, joinLines]
    · simp only [gAfter, afterLines, h, ha, Bool.not_false, if_pos, List.map_cons,
        List.map_nil, joinLines, String.data_append, List.append_assoc]

theorem gSvcHeader_data (c : ServiceConfig) :
    (gSvcHeader c).data
      = (gAfter c).data ++ joinLines ((["", "[Service]"]).map String.data) [] := by
  simp only [gSvcHeader, joinLines, List.map_cons, List.map_nil,
    String.data_append, List.append_assoc]
  rfl

theorem gWd_data (c : ServiceConfig) :
    (gWd c).data
      = (gSvcHeader c).data
        ++ joinLines ((optLine "WorkingDirectory=" c.working_directory).map String.data) [] := by
  cases h : c.working_directory with
  | none => simp [gWd, optLine, h, joinLines]
  | some v =>
    simp only [gWd, optLine, h, List.map_cons, List.map_nil, joinLines,
      String.data_append, List.append_assoc]

theorem gUser_data (c : ServiceConfig) :
    (gUser c).data
      = (gWd c).data ++ joinLines ((optLine "User=" c.user).map String.data) [] := by
  cases h : c.user with
  | none => simp [gUser, optLine, h, joinLines]
  | some v =>
    simp only [gUser, optLine, h, List.map_cons, List.map_nil, joinLines,
      String.data_append, List.append_assoc]

theorem gGroup_data (c : ServiceConfig) :
    (gGroup c).data
      = (gUser c).data ++ joinLines ((optLine "Group=" c.group).map String.data) [] := by
  cases h : c.group with
  | none => simp [gGroup, optLine, h, joinLines]
  | some v =>
    simp only [gGroup, optLine, h, List.map_cons, List.map_nil, joinLines,
      String.data_append, List.append_assoc]

theorem gRestart_data (c : ServiceConfig) :
    (gRestart c).data
      = (gGroup c).data ++ joinLines ((optLine "Restart=" c.restart).map String.data) [] := by
  cases h : c.restart with
  | none => simp [gRestart, optLine, h, joinLines]
  | some v =>
    simp only [gRestart, optLine, h, List.map_cons, List.map_nil, joinLines,
      String.data_append, List.append_assoc]

theorem gSec_data (c : ServiceConfig) :
    (gSec c).data
      = (gRestart c).data ++ joinLines ((secLines c.restart_sec).map String.data) [] := by
  cases h : c.restart_sec with
  | none => simp [gSec, secLines, h, joinLines]
  | some n =>
    simp only [gSec, secLines, h, List.map_cons, List.map_nil, joinLines,
      String.data_append, List.append_assoc]

theorem gExec_data (c : ServiceConfig) :
    (gExec c).data
      = (gSec c).data ++ joinLines ((["ExecStart=" ++ c.exec_start]).map String.data) [] := by
  simp only [gExec, List.map_cons, List.map_nil, joinLines,
    String.data_append, List.append_assoc]

theorem gLog_data (c : ServiceConfig) :
    (gLog c).data
      = (gExec c).data ++ joinLines ((logLines c.log_file).map String.data) [] := by
  cases h : c.log_file with
  | none => simp [gLog, logLines, h, joinLines]
  | some f =>
    simp only [gLog, logLines, h, List.map_cons, List.map_nil, joinLines,
      String.data_append, List.append_assoc]
    rfl

theorem gEnv_data (c : ServiceConfig) :
    (gEnv c).data
      = (gLog c).data ++ joinLines ((envLines c.environment).map String.data) [] := by
  cases h : c.environment with
  | none => simp [gEnv, envLines, h, joinLines]
  | some e =>
    by_cases he : e.isEmpty
    · simp [gEnv, envLines, h, he, joinLines]
    · simp only [gEnv, envLines, h, he, Bool.not_false, if_pos]
      rw [envFold_data]

theorem gInstall_data (c : ServiceConfig) :
    (gInstall c).data
      = (gEnv c).data ++ joinLines ((["", "[Install]"]).map String.data) [] := by
  simp only [gInstall, joinLines, List.map_cons, List.map_nil,
    String.data_append, List.append_assoc]
  rfl

theorem gWanted_data (c : ServiceConfig) :
    (gWanted c).data
      = (gInstall c).data ++ joinLines ((optLine "WantedBy=" c.wanted_by).map String.data) [] := by
  cases h : c.wanted_by with
  | none => simp [gWanted, optLine, h, joinLines]
  | some v =>
    simp only [gWanted, optLine, h, List.map_cons, List.map_nil, joinLines,
      String.data_append, List.append_assoc]

/-- The text `generate` produces is exactly its emitted lines, each
terminated by a newline. -/
theorem generate_data (c : ServiceConfig) :
    ((SystemdService.new c).generate).data = joinLines ((genLines c).map String.data) [] := by
  rw [generate_eq_pieces, gWanted_data, gInstall_data, gEnv_data, gLog_data, gExec_data,
    gSec_data, gRestart_data, gGroup_data, gUser_data, gWd_data, gSvcHeader_data,
    gAfter_data, gUnit_data, genLines]
  simp only [List.map_append, joinLines_append, List.append_assoc, joinLines_append_left,
    List.nil_append]

/-! ### Newline-free configurations -/

theorem digitChar_ne_newline (m : Nat) : Nat.digitChar m ≠ '\n' := by
  match m with
  | 0 => decide
  | 1 => decide
  | 2 => decide
  | 3 => decide
  | 4 => decide
  | 5 => decide
  | 6 => decide
  | 7 => decide
  | 8 => decide
  | 9 => decide
  | 10 => decide
  | 11 => decide
  | 12 => decide
  | 13 => decide
  | 14 => decide
  | 15 => decide
  | n+16 =>
    have h : Nat.digitChar (n+16) = '*' := rfl
    rw [h]; decide

theorem toDigitsCore_ne_newline (b : Nat) :
    ∀ (fuel n : Nat) (acc : List Char), (∀ c ∈ acc, c ≠ '\n') →
      ∀ c ∈ Nat.toDigitsCore b fuel n acc, c ≠ '\n' := by
  intro fuel
  induction fuel with
  | zero => intro n acc hacc c hc; exact hacc c hc
  | succ fuel ih =>
    intro n acc hacc c hc
    unfold Nat.toDigitsCore at hc
    by_cases h0 : n / b = 0
    · simp only [h0, if_pos] at hc
      rw [List.mem_cons] at hc
      rcases hc with h | h
      · subst h; exact digitChar_ne_newline _
      · exact hacc c h
    · simp only [h0, if_neg, if_false] at hc
      refine ih _ _ ?_ c hc
      intro c' hc'
      rw [List.mem_cons] at hc'
      rcases hc' with h | h
      · subst h; exact digitChar_ne_newline _
      · exact hacc c' h

/-- The decimal rendering of a natural number never contains a newline. -/
theorem repr_ne_newline (n : Nat) : '\n' ∉ (Nat.repr n).data := by
  intro hc
  have e : (Nat.repr n).data = Nat.toDigits 10 n := rfl
  rw [e] at hc
  exact toDigitsCore_ne_newline 10 (n+1) n [] (by intro c h; cases h) '\n' hc rfl

/-- `s` contains no newline character. -/
def nlFree (s : String) : Bool := decide ('\n' ∉ s.data)

theorem nlFree_iff (s : String) : nlFree s = true ↔ '\n' ∉ s.data := by
  simp [nlFree]

/-- Newline-freeness of an optional field value. -/
def optNlFree (o : Option String) : Bool :=
  match o with
  | some s => nlFree s
  | none => true

/-- Every string the configuration supplies to the descriptor builder is
newline-free: the condition under which the "lines" of the generated text
are exactly the lines the builder emits. -/
def noNewlines (c : ServiceConfig) : Bool :=
  nlFree c.description && nlFree c.exec_start
    && optNlFree c.working_directory && optNlFree c.user && optNlFree c.group
    && optNlFree c.restart && optNlFree c.wanted_by && optNlFree c.log_file
    && (match c.after with
        | some after => after.all nlFree
        | none => true)
    && (match c.environment with
        | some environment => environment.all fun kv => nlFree kv.1 && nlFree kv.2
        | none => true)

theorem nl_notin_append {a b : String} (ha : '\n' ∉ a.data) (hb : '\n' ∉ b.data) :
    '\n' ∉ (a ++ b).data := by
  simp only [String.data_append, List.mem_append]
  exact fun h => h.elim ha hb

theorem intercalate_go_nlFree (sep : String) (hsep : '\n' ∉ sep.data) :
    ∀ (as : List String) (acc : String), '\n' ∉ acc.data → (∀ x ∈ as, '\n' ∉ x.data) →
      '\n' ∉ (String.intercalate.go acc sep as).data := by
  intro as
  induction as with
  | nil => intro acc hacc _; exact hacc
  | cons a t ih =>
    intro acc hacc hall
    rw [String.intercalate.go]
    refine ih _ (nl_notin_append (nl_notin_append hacc hsep) (hall a (List.mem_cons_self ..))) ?_
    exact fun x hx => hall x (List.mem_cons_of_mem _ hx)

theorem intercalate_nlFree (sep : String) (hsep : '\n' ∉ sep.data) (l : List String)
    (h : ∀ x ∈ l, '\n' ∉ x.data) : '\n' ∉ (String.intercalate sep l).data := by
  cases l with
  | nil => simp [String.intercalate]
  | cons a t =>
    rw [String.intercalate]
    exact intercalate_go_nlFree sep hsep t a (h a (List.mem_cons_self ..))
      (fun x hx => h x (List.mem_cons_of_mem _ hx))

/-! ### Membership in the emitted lines -/

theorem mem_optLine {key l : String} {o : Option String} (hl : l ∈ optLine key o) :
    ∃ v, o = some v ∧ l = key ++ v := by
  cases o with
  | none => simp [optLine] at hl
  | some v =>
    simp only [optLine, List.mem_singleton] at hl
    exact ⟨v, rfl, hl⟩

theorem mem_afterLines {l : String} {o : Option (List String)} (hl : l ∈ afterLines o) :
    ∃ a, o = some a ∧ a ≠ [] ∧ l = "After=" ++ String.intercalate " " a := by
  cases o with
  | none => simp [afterLines] at hl
  | some a =>
    by_cases ha : a.isEmpty
    · simp [afterLines, ha] at hl
    · simp only [afterLines, ha, Bool.not_false, if_pos, List.mem_singleton] at hl
      refine ⟨a, rfl, ?_, hl⟩
      intro hnil
      rw [hnil] at ha
      exact ha rfl

theorem mem_secLines {l : String} {o : Option Nat} (hl : l ∈ secLines o) :
    ∃ n, o = some n ∧ l = "RestartSec=" ++ toString n := by
  cases o with
  | none => simp [secLines] at hl
  | some n =>
    simp only [secLines, List.mem_singleton] at hl
    exact ⟨n, rfl, hl⟩

theorem mem_logLines {l : String} {o : Option String} (hl : l ∈ logLines o) :
    ∃ f, o = some f ∧ (l = "StandardOutput=append:" ++ f ∨ l = "StandardError=inherit") := by
  cases o with
  | none => simp [logLines] at hl
  | some f =>
    simp only [logLines, List.mem_cons, List.mem_singleton, List.not_mem_nil, or_false] at hl
    exact ⟨f, rfl, hl⟩

theorem mem_envLines {l : String} {o : Option (List (String × String))} (hl : l ∈ envLines o) :
    ∃ e kv, o = some e ∧ kv ∈ e ∧ l = envLine kv := by
  cases o with
  | none => simp [envLines] at hl
  | some e =>
    by_cases he : e.isEmpty
    · simp [envLines, he] at hl
    · simp only [envLines, he, Bool.not_false, if_pos, List.mem_map] at hl
      rcases hl with ⟨kv, hkv, rfl⟩
      exact ⟨e, kv, rfl, hkv, rfl⟩

/-- Under `noNewlines`, every emitted line is newline-free. -/
theorem genLines_noNewlines (c : ServiceConfig) (h : noNewlines c = true) :
    ∀ l ∈ genLines c, '\n' ∉ l.data := by
  simp only [noNewlines, Bool.and_eq_true] at h
  obtain ⟨⟨⟨⟨⟨⟨⟨⟨⟨hd, hex⟩, hwd⟩, hu⟩, hg⟩, hr⟩, hwb⟩, hlf⟩, haf⟩, henv⟩ := h
  have hopt : ∀ (o : Option String), optNlFree o = true →
      ∀ v, o = some v → '\n' ∉ v.data := by
    intro o ho v hv
    subst hv
    exact (nlFree_iff v).mp ho
  intro l hl
  simp only [genLines, List.mem_append, List.mem_cons, List.not_mem_nil, or_false,
    or_assoc] at hl
  rcases hl with rfl | rfl | hl | rfl | rfl | hl | hl | hl | hl | hl | rfl | hl | hl | rfl | rfl | hl
  · decide
  · exact nl_notin_append (by decide) ((nlFree_iff _).mp hd)
  · rcases mem_afterLines hl with ⟨a, ha, -, rfl⟩
    refine nl_notin_append (by decide) (intercalate_nlFree " " (by decide) a ?_)
    intro x hx
    rw [ha] at haf
    exact (nlFree_iff x).mp (List.all_eq_true.mp haf x hx)
  · decide
  · decide
  · rcases mem_optLine hl with ⟨v, hv, rfl⟩
    exact nl_notin_append (by decide) (hopt _ hwd v hv)
  · rcases mem_optLine hl with ⟨v, hv, rfl⟩
    exact nl_notin_append (by decide) (hopt _ hu v hv)
  · rcases mem_optLine hl with ⟨v, hv, rfl⟩
    exact nl_notin_append (by decide) (hopt _ hg v hv)
  · rcases mem_optLine hl with ⟨v, hv, rfl⟩
    exact nl_notin_append (by decide) (hopt _ hr v hv)
  · rcases mem_secLines hl with ⟨n, hn, rfl⟩
    exact nl_notin_append (by decide) (repr_ne_newline n)
  · exact nl_notin_append (by decide) ((nlFree_iff _).mp hex)
  · rcases mem_logLines hl with ⟨f, hf, rfl | rfl⟩
    · exact nl_notin_append (by decide) (hopt _ hlf f hf)
    · decide
  · rcases mem_envLines hl with ⟨e, kv, he, hkv, rfl⟩
    rw [he] at henv
    have hk := List.all_eq_true.mp henv kv hkv
    rw [Bool.and_eq_true] at hk
    refine nl_notin_append (nl_notin_append (nl_notin_append
      (nl_notin_append (by decide) ((nlFree_iff _).mp hk.1)) (by decide))
      ((nlFree_iff _).mp hk.2)) (by decide)
  · decide
  · decide
  · rcases mem_optLine hl with ⟨v, hv, rfl⟩
    exact nl_notin_append (by decide) (hopt _ hwb v hv)

theorem mk_data (s : String) : String.mk s.data = s := rfl

/-- Under `noNewlines`, the lines of the generated text are exactly the
emitted lines, plus the empty line after the final newline. -/
theorem descriptorLines_generate (c : ServiceConfig) (h : noNewlines c = true) :
    descriptorLines ((SystemdService.new c).generate) = genLines c ++ [""] := by
  unfold descriptorLines
  rw [generate_data]
  rw [splitLines_joinLines _ (by
    intro l hl
    rcases List.mem_map.mp hl with ⟨x, hx, rfl⟩
    exact genLines_noNewlines c h x hx) []]
  simp only [splitLines, List.map_append, List.map_map]
  congr 1
  have e : (String.mk ∘ String.data) = id := by
    funext x
    exact mk_data x
  rw [e, List.map_id]

/-! ### Concrete fixtures -/

/-- A world without privileges: effective uid 1 on a Unix platform,
empty filesystem, reliable OS primitives, empty traces. -/
def unprivWorld : World :=
  { unix := true
    euid := 1
    files := []
    createFailure := fun _ => none
    run := fun _ => SpawnResult.exited true
    output := []
    invoked := [] }

/-- The same world with effective uid 0. -/
def rootWorld : World :=
  { unprivWorld with euid := 0 }

/-- A privileged world where the install path is already occupied. -/
def occupiedWorld : World :=
  { rootWorld with files := [("/etc/systemd/system/myapp.service", "old contents")] }

/-- A privileged world where spawning `systemctl` itself fails. -/
def spawnFailWorld : World :=
  { rootWorld with run := fun _ => SpawnResult.spawnFailure "No such file" }

/-- A small concrete service used by the witnesses. -/
def myappSvc : SystemdService :=
  SystemdService.new (ServiceConfig.new "myapp" "/usr/local/bin/myapp" "My App")

/-! ### The claims -/

/-- C1: when the capability check reports false, each mutating operation
(write, enable, start, reload) returns the Permission error
"need root privileges" and leaves the world — files, invoked commands,
printed output — exactly unchanged. -/
theorem privilege_gate_blocks_mutations (s : SystemdService) (path : String) (w : World)
    (h : is_root w = false) :
    s.write path w = (Except.error (Error.Permission "need root privileges"), w)
    ∧ s.enable w = (Except.error (Error.Permission "need root privileges"), w)
    ∧ s.start w = (Except.error (Error.Permission "need root privileges"), w)
    ∧ SystemdService.reload_systemd w
        = (Except.error (Error.Permission "need root privileges"), w) := by
  have hv : validate_root_privileges w = Except.error (Error.Permission "need root privileges") := by
    simp [validate_root_privileges, h]
  refine ⟨?_, ?_, ?_, ?_⟩ <;>
    simp [SystemdService.write, SystemdService.enable, SystemdService.start,
      SystemdService.reload_systemd, hv]

theorem privilege_gate_blocks_mutations_witness :
    is_root unprivWorld = false
    ∧ myappSvc.write "/etc/systemd/system/myapp.service" unprivWorld
        = (Except.error (Error.Permission "need root privileges"), unprivWorld)
    ∧ myappSvc.enable unprivWorld
        = (Except.error (Error.Permission "need root privileges"), unprivWorld)
    ∧ myappSvc.start unprivWorld
        = (Except.error (Error.Permission "need root privileges"), unprivWorld)
    ∧ SystemdService.reload_systemd unprivWorld
        = (Except.error (Error.Permission "need root privileges"), unprivWorld) :=
  ⟨rfl, privilege_gate_blocks_mutations myappSvc "/etc/systemd/system/myapp.service"
    unprivWorld rfl⟩

/-- C2: if a file already exists at the resolved install path,
install_and_enable fails with the Io error "Service file exists" and the
world — the existing file included — is exactly unchanged: nothing is
written, no reload and no enable happens. -/
theorem install_anti_clobber (s : SystemdService) (w : World)
    (h : (lookupFile w.files
        ("/etc/systemd/system/" ++ s.config.name ++ ".service")).isSome = true) :
    s.install_and_enable w = (Except.error (Error.Io "Service file exists"), w) := by
  simp [SystemdService.install_and_enable, SystemdService.get_service_file_path, h]

theorem install_anti_clobber_witness :
    (lookupFile occupiedWorld.files
        ("/etc/systemd/system/" ++ myappSvc.config.name ++ ".service")).isSome = true
    ∧ myappSvc.install_and_enable occupiedWorld
        = (Except.error (Error.Io "Service file exists"), occupiedWorld) :=
  ⟨rfl, install_anti_clobber myappSvc occupiedWorld rfl⟩

/-- C3: install_and_enable performs resolve-path, write, daemon-reload,
enable in that fixed order; the first failing step aborts the run with
the world exactly as that step left it and the error passed through
unchanged; on full success only the final confirmation print is added. -/
theorem install_and_enable_steps (s : SystemdService) (w : World) :
    (∀ e, s.get_service_file_path w = Except.error e →
        s.install_and_enable w = (Except.error e, w))
    ∧ (∀ path, s.get_service_file_path w = Except.ok path →
        (∀ e w1, s.write path w = (Except.error e, w1) →
            s.install_and_enable w = (Except.error e, w1))
        ∧ (∀ w1, s.write path w = (Except.ok (), w1) →
            (∀ e w2, SystemdService.reload_systemd w1 = (Except.error e, w2) →
                s.install_and_enable w = (Except.error e, w2))
            ∧ (∀ w2, SystemdService.reload_systemd w1 = (Except.ok (), w2) →
                (∀ e w3, s.enable w2 = (Except.error e, w3) →
                    s.install_and_enable w = (Except.error e, w3))
                ∧ (∀ w3, s.enable w2 = (Except.ok (), w3) →
                    s.install_and_enable w =
                      (Except.ok (),
                        { w3 with output := w3.output ++
                            ["Service \x27" ++ s.config.name ++ "\x27 已安装并启用"] }))))) := by
  refine ⟨?_, ?_⟩
  · intro e he
    simp [SystemdService.install_and_enable, he]
  · intro path hp
    refine ⟨?_, ?_⟩
    · intro e w1 hw
      simp [SystemdService.install_and_enable, hp, hw]
    · intro w1 hw
      refine ⟨?_, ?_⟩
      · intro e w2 hr
        simp [SystemdService.install_and_enable, hp, hw, hr]
      · intro w2 hr
        refine ⟨?_, ?_⟩
        · intro e w3 hen
          simp [SystemdService.install_and_enable, hp, hw, hr, hen]
        · intro w3 hen
          simp [SystemdService.install_and_enable, hp, hw, hr, hen]

theorem install_and_enable_steps_witness :
    myappSvc.get_service_file_path occupiedWorld
      = Except.error (Error.Io "Service file exists")
    ∧ myappSvc.install_and_enable occupiedWorld
      = (Except.error (Error.Io "Service file exists"), occupiedWorld) :=
  ⟨rfl, (install_and_enable_steps myappSvc occupiedWorld).1
    (Error.Io "Service file exists") rfl⟩

/-- C4: the descriptor builder is a pure, total, deterministic function
of the configuration value: it is a Lean function (hence total — it never
fails), and two managers holding equal configurations generate
byte-identical text. -/
theorem generate_deterministic (s1 s2 : SystemdService) (h : s1.config = s2.config) :
    s1.generate = s2.generate := by
  cases s1
  cases s2
  cases h
  rfl

theorem generate_deterministic_witness :
    myappSvc.config = (SystemdService.new myappSvc.config).config
    ∧ myappSvc.generate = (SystemdService.new myappSvc.config).generate :=
  ⟨rfl, generate_deterministic myappSvc (SystemdService.new myappSvc.config) rfl⟩

/-- Configurations obtainable from the public construction interface:
`ServiceConfig::new n e d` followed by any chain of builder methods. -/
inductive ReachableFrom (n e d : String) : ServiceConfig → Prop where
  | base : ReachableFrom n e d (ServiceConfig.new n e d)
  | wd (c : ServiceConfig) (x : String) :
      ReachableFrom n e d c → ReachableFrom n e d (c.with_working_directory x)
  | user (c : ServiceConfig) (x : String) :
      ReachableFrom n e d c → ReachableFrom n e d (c.with_user x)
  | group (c : ServiceConfig) (x : String) :
      ReachableFrom n e d c → ReachableFrom n e d (c.with_group x)
  | restart (c : ServiceConfig) (x : String) :
      ReachableFrom n e d c → ReachableFrom n e d (c.with_restart x)
  | restart_sec (c : ServiceConfig) (x : Nat) :
      ReachableFrom n e d c → ReachableFrom n e d (c.with_restart_sec x)
  | wanted_by (c : ServiceConfig) (x : String) :
      ReachableFrom n e d c → ReachableFrom n e d (c.with_wanted_by x)
  | environment (c : ServiceConfig) (x : List (String × String)) :
      ReachableFrom n e d c → ReachableFrom n e d (c.with_environment x)
  | after (c : ServiceConfig) (x : List String) :
      ReachableFrom n e d c → ReachableFrom n e d (c.with_after x)
  | log_file (c : ServiceConfig) (x : String) :
      ReachableFrom n e d c → ReachableFrom n e d (c.with_log_file x)

/-- C9 counterexample: nothing rejects an empty name — `new ""` is
reachable and its name is empty, so not every constructible
configuration has a non-empty name. -/
theorem nonempty_name_cex :
    ¬ (∀ (n e d : String) (c : ServiceConfig), ReachableFrom n e d c → c.name ≠ "") := by
  intro h
  exact h "" "/x" "d" (ServiceConfig.new "" "/x" "d") ReachableFrom.base rfl

/-- C9 (amended): no builder method changes the name, so a constructed
configuration's name is exactly the string passed to `new`; it is
non-empty exactly when that argument was (emptiness is not enforced). -/
theorem reachable_name (n e d : String) (c : ServiceConfig)
    (h : ReachableFrom n e d c) : c.name = n := by
  induction h with
  | base => rfl
  | wd c x _ ih => simpa [ServiceConfig.with_working_directory] using ih
  | user c x _ ih => simpa [ServiceConfig.with_user] using ih
  | group c x _ ih => simpa [ServiceConfig.with_group] using ih
  | restart c x _ ih => simpa [ServiceConfig.with_restart] using ih
  | restart_sec c x _ ih => simpa [ServiceConfig.with_restart_sec] using ih
  | wanted_by c x _ ih => simpa [ServiceConfig.with_wanted_by] using ih
  | environment c x _ ih => simpa [ServiceConfig.with_environment] using ih
  | after c x _ ih => simpa [ServiceConfig.with_after] using ih
  | log_file c x _ ih => simpa [ServiceConfig.with_log_file] using ih

theorem reachable_name_witness :
    ReachableFrom "myapp" "/x" "d" ((ServiceConfig.new "myapp" "/x" "d").with_user "bob")
    ∧ ((ServiceConfig.new "myapp" "/x" "d").with_user "bob").name = "myapp" :=
  ⟨ReachableFrom.user _ _ ReachableFrom.base,
   reachable_name "myapp" "/x" "d" _ (ReachableFrom.user _ _ ReachableFrom.base)⟩

/-- C10: with privileges, enable, start and the internal daemon-reload
return a Command error exactly when the spawned systemctl process runs
and exits unsuccessfully; a spawn failure (for example, binary not
found) surfaces as an Io error through `From<std::io::Error>`, never as
a Command error. -/
theorem command_error_classification (s : SystemdService) (w : World)
    (hroot : is_root w = true) :
    (∀ msg, w.run ["enable", s.config.name] = SpawnResult.spawnFailure msg →
        (s.enable w).1 = Except.error (Error.Io msg))
    ∧ (∀ ok, w.run ["enable", s.config.name] = SpawnResult.exited ok →
        (s.enable w).1 = (if ok then Except.ok ()
          else Except.error (Error.Command ("enable \x27" ++ s.config.name ++ "\x27 failed"))))
    ∧ (∀ msg, w.run ["start", s.config.name] = SpawnResult.spawnFailure msg →
        (s.start w).1 = Except.error (Error.Io msg))
    ∧ (∀ ok, w.run ["start", s.config.name] = SpawnResult.exited ok →
        (s.start w).1 = (if ok then Except.ok ()
          else Except.error (Error.Command ("start \x27" ++ s.config.name ++ "\x27 failed"))))
    ∧ (∀ msg, w.run ["daemon-reload"] = SpawnResult.spawnFailure msg →
        ((SystemdService.reload_systemd w).1 : Except Error Unit)
          = Except.error (Error.Io msg))
    ∧ (∀ ok, w.run ["daemon-reload"] = SpawnResult.exited ok →
        (SystemdService.reload_systemd w).1 = (if ok then Except.ok ()
          else Except.error (Error.Command "systemctl daemon-reload failed"))) := by
  have hv : validate_root_privileges w = Except.ok () := by
    simp [validate_root_privileges, hroot]
  refine ⟨?_, ?_, ?_, ?_, ?_, ?_⟩
  · intro msg hrun
    simp [SystemdService.enable, hv, systemctl_status, hrun]
  · intro ok hrun
    cases ok <;> simp [SystemdService.enable, hv, systemctl_status, hrun]
  · intro msg hrun
    simp [SystemdService.start, hv, systemctl_status, hrun]
  · intro ok hrun
    cases ok <;> simp [SystemdService.start, hv, systemctl_status, hrun]
  · intro msg hrun
    simp [SystemdService.reload_systemd, hv, systemctl_status, hrun]
  · intro ok hrun
    cases ok <;> simp [SystemdService.reload_systemd, hv, systemctl_status, hrun]

theorem command_error_classification_witness :
    is_root spawnFailWorld = true
    ∧ spawnFailWorld.run ["enable", myappSvc.config.name]
        = SpawnResult.spawnFailure "No such file"
    ∧ (myappSvc.enable spawnFailWorld).1 = Except.error (Error.Io "No such file") :=
  ⟨rfl, rfl,
    (command_error_classification myappSvc spawnFailWorld rfl).1 "No such file" rfl⟩

/-! ### Positive line membership -/

theorem mem_tail_splitLines_prepend (X l : List Char) (h : l ∈ splitLines X) :
    ∀ a : List Char, l ∈ (splitLines (a ++ '\n' :: X)).tail := by
  intro a
  induction a with
  | nil =>
    have e : splitLines (([] : List Char) ++ '\n' :: X) = [] :: splitLines X := by
      simp [splitLines]
    rw [e]
    exact h
  | cons c t ih =>
    by_cases hc : c = '\n'
    · subst hc
      have e : splitLines (('\n' :: t) ++ '\n' :: X)
          = [] :: splitLines (t ++ '\n' :: X) := by
        simp [splitLines]
      rw [e]
      exact List.mem_of_mem_tail ih
    · cases hS : splitLines (t ++ '\n' :: X) with
      | nil => exact absurd hS (splitLines_ne_nil _)
      | cons hd tl =>
        have e : splitLines ((c :: t) ++ '\n' :: X) = (c :: hd) :: tl := by
          simp only [List.cons_append, splitLines, if_neg hc, List.append_eq, hS]
        rw [e]
        rw [hS] at ih
        exact ih

/-- A newline-free member of a terminated-line list is one of the split
lines of the flattened text, whatever the other lines contain. -/
theorem mem_splitLines_joinLines (ls : List (List Char)) (l : List Char)
    (hl : '\n' ∉ l) (hmem : l ∈ ls) (rest : List Char) :
    l ∈ splitLines (joinLines ls rest) := by
  induction ls with
  | nil => cases hmem
  | cons a t ih =>
    rw [List.mem_cons] at hmem
    rcases hmem with rfl | hmem
    · rw [joinLines, splitLines_terminated l hl]
      exact List.mem_cons_self ..
    · rw [joinLines]
      exact List.mem_of_mem_tail (mem_tail_splitLines_prepend _ l (ih hmem) a)

/-- Any newline-free emitted line is a full line of the generated text
(no hypothesis on the rest of the configuration). -/
theorem hasLine_of_mem_genLines (c : ServiceConfig) (line : String)
    (hl : '\n' ∉ line.data) (hmem : line ∈ genLines c) :
    hasLine ((SystemdService.new c).generate) line := by
  unfold hasLine descriptorLines
  rw [generate_data]
  refine List.mem_map.mpr ⟨line.data, ?_, mk_data line⟩
  exact mem_splitLines_joinLines _ _ hl (List.mem_map_of_mem _ hmem) []

/-- C5: a configuration built by `new` alone carries the documented
defaults — restart "always", restart_sec 5, wanted_by
"multi-user.target" — and for every choice of the three required fields
the generated text contains the lines Restart=always, RestartSec=5 and
WantedBy=multi-user.target. -/
theorem minimal_config_defaults (n e d : String) :
    (ServiceConfig.new n e d).restart = some "always"
    ∧ (ServiceConfig.new n e d).restart_sec = some 5
    ∧ (ServiceConfig.new n e d).wanted_by = some "multi-user.target"
    ∧ hasLine ((SystemdService.new (ServiceConfig.new n e d)).generate) "Restart=always"
    ∧ hasLine ((SystemdService.new (ServiceConfig.new n e d)).generate) "RestartSec=5"
    ∧ hasLine ((SystemdService.new (ServiceConfig.new n e d)).generate)
        "WantedBy=multi-user.target" := by
  refine ⟨rfl, rfl, rfl, ?_, ?_, ?_⟩
  · refine hasLine_of_mem_genLines _ _ (by decide) ?_
    simp [genLines, ServiceConfig.new, ServiceConfig.default, optLine, afterLines,
      secLines, logLines, envLines]
  · refine hasLine_of_mem_genLines _ _ (by decide) ?_
    simp [genLines, ServiceConfig.new, ServiceConfig.default, optLine, afterLines,
      secLines, logLines, envLines]
    exact Or.inr (Or.inl (by decide))
  · refine hasLine_of_mem_genLines _ _ (by decide) ?_
    simp [genLines, ServiceConfig.new, ServiceConfig.default, optLine, afterLines,
      secLines, logLines, envLines]

/-! ### Negative line membership -/

/-- Exhaustive description of membership in the emitted lines. -/
theorem mem_genLines_cases (c : ServiceConfig) (l : String) (hmem : l ∈ genLines c) :
    l = "[Unit]"
    ∨ l = "Description=" ++ c.description
    ∨ (∃ a, c.after = some a ∧ a ≠ [] ∧ l = "After=" ++ String.intercalate " " a)
    ∨ l = ""
    ∨ l = "[Service]"
    ∨ (∃ v, c.working_directory = some v ∧ l = "WorkingDirectory=" ++ v)
    ∨ (∃ v, c.user = some v ∧ l = "User=" ++ v)
    ∨ (∃ v, c.group = some v ∧ l = "Group=" ++ v)
    ∨ (∃ v, c.restart = some v ∧ l = "Restart=" ++ v)
    ∨ (∃ n, c.restart_sec = some n ∧ l = "RestartSec=" ++ toString n)
    ∨ l = "ExecStart=" ++ c.exec_start
    ∨ (∃ f, c.log_file = some f
        ∧ (l = "StandardOutput=append:" ++ f ∨ l = "StandardError=inherit"))
    ∨ (∃ e kv, c.environment = some e ∧ kv ∈ e ∧ l = envLine kv)
    ∨ l = "[Install]"
    ∨ (∃ v, c.wanted_by = some v ∧ l = "WantedBy=" ++ v) := by
  simp only [genLines, List.mem_append, List.mem_cons, List.not_mem_nil, or_false,
    or_assoc] at hmem
  rcases hmem with h|h|h|h|h|h|h|h|h|h|h|h|h|h|h|h
  · exact Or.inl h
  · right; left; exact h
  · iterate 2 right
    left; exact mem_afterLines h
  · iterate 3 right
    left; exact h
  · iterate 4 right
    left; exact h
  · iterate 5 right
    left; exact mem_optLine h
  · iterate 6 right
    left; exact mem_optLine h
  · iterate 7 right
    left; exact mem_optLine h
  · iterate 8 right
    left; exact mem_optLine h
  · iterate 9 right
    left; exact mem_secLines h
  · iterate 10 right
    left; exact h
  · iterate 11 right
    left; exact mem_logLines h
  · iterate 12 right
    left; exact mem_envLines h
  · iterate 3 right
    left; exact h
  · iterate 13 right
    left; exact h
  · iterate 14 right
    exact mem_optLine h

/-- A string that is neither an emitted line nor empty is not a line of
the generated text (for newline-free configurations). -/
theorem not_hasLine_all (c : ServiceConfig) (h : noNewlines c = true) (x : String)
    (hx : x ∉ genLines c) (hne : x ≠ "") :
    ¬ hasLine ((SystemdService.new c).generate) x := by
  intro hmem
  unfold hasLine at hmem
  rw [descriptorLines_generate c h, List.mem_append] at hmem
  rcases hmem with hmem | hmem
  · exact hx hmem
  · rw [List.mem_singleton] at hmem
    exact hne hmem

theorem not_mem_genLines_wd (c : ServiceConfig) (hf : c.working_directory = none)
    (v : String) : "WorkingDirectory=" ++ v ∉ genLines c := by
  intro hmem
  rcases mem_genLines_cases c _ hmem with
    h|h|⟨a,ha,hane,h⟩|h|h|⟨x,hx,h⟩|⟨x,hx,h⟩|⟨x,hx,h⟩|⟨x,hx,h⟩|⟨m,hm,h⟩|h|⟨f,hfl,h|h⟩|⟨ev,kv,he,hkv,h⟩|h|⟨x,hx,h⟩ <;>
    simp_all [String.ext_iff, envLine]

theorem not_mem_genLines_user (c : ServiceConfig) (hf : c.user = none)
    (v : String) : "User=" ++ v ∉ genLines c := by
  intro hmem
  rcases mem_genLines_cases c _ hmem with
    h|h|⟨a,ha,hane,h⟩|h|h|⟨x,hx,h⟩|⟨x,hx,h⟩|⟨x,hx,h⟩|⟨x,hx,h⟩|⟨m,hm,h⟩|h|⟨f,hfl,h|h⟩|⟨ev,kv,he,hkv,h⟩|h|⟨x,hx,h⟩ <;>
    simp_all [String.ext_iff, envLine]

theorem not_mem_genLines_group (c : ServiceConfig) (hf : c.group = none)
    (v : String) : "Group=" ++ v ∉ genLines c := by
  intro hmem
  rcases mem_genLines_cases c _ hmem with
    h|h|⟨a,ha,hane,h⟩|h|h|⟨x,hx,h⟩|⟨x,hx,h⟩|⟨x,hx,h⟩|⟨x,hx,h⟩|⟨m,hm,h⟩|h|⟨f,hfl,h|h⟩|⟨ev,kv,he,hkv,h⟩|h|⟨x,hx,h⟩ <;>
    simp_all [String.ext_iff, envLine]

theorem not_mem_genLines_restart (c : ServiceConfig) (hf : c.restart = none)
    (v : String) : "Restart=" ++ v ∉ genLines c := by
  intro hmem
  rcases mem_genLines_cases c _ hmem with
    h|h|⟨a,ha,hane,h⟩|h|h|⟨x,hx,h⟩|⟨x,hx,h⟩|⟨x,hx,h⟩|⟨x,hx,h⟩|⟨m,hm,h⟩|h|⟨f,hfl,h|h⟩|⟨ev,kv,he,hkv,h⟩|h|⟨x,hx,h⟩ <;>
    simp_all [String.ext_iff, envLine]

theorem not_mem_genLines_sec (c : ServiceConfig) (hf : c.restart_sec = none)
    (v : String) : "RestartSec=" ++ v ∉ genLines c := by
  intro hmem
  rcases mem_genLines_cases c _ hmem with
    h|h|⟨a,ha,hane,h⟩|h|h|⟨x,hx,h⟩|⟨x,hx,h⟩|⟨x,hx,h⟩|⟨x,hx,h⟩|⟨m,hm,h⟩|h|⟨f,hfl,h|h⟩|⟨ev,kv,he,hkv,h⟩|h|⟨x,hx,h⟩ <;>
    simp_all [String.ext_iff, envLine]

theorem not_mem_genLines_wanted (c : ServiceConfig) (hf : c.wanted_by = none)
    (v : String) : "WantedBy=" ++ v ∉ genLines c := by
  intro hmem
  rcases mem_genLines_cases c _ hmem with
    h|h|⟨a,ha,hane,h⟩|h|h|⟨x,hx,h⟩|⟨x,hx,h⟩|⟨x,hx,h⟩|⟨x,hx,h⟩|⟨m,hm,h⟩|h|⟨f,hfl,h|h⟩|⟨ev,kv,he,hkv,h⟩|h|⟨x,hx,h⟩ <;>
    simp_all [String.ext_iff, envLine]

theorem not_mem_genLines_stdout (c : ServiceConfig) (hf : c.log_file = none)
    (v : String) : "StandardOutput=" ++ v ∉ genLines c := by
  intro hmem
  rcases mem_genLines_cases c _ hmem with
    h|h|⟨a,ha,hane,h⟩|h|h|⟨x,hx,h⟩|⟨x,hx,h⟩|⟨x,hx,h⟩|⟨x,hx,h⟩|⟨m,hm,h⟩|h|⟨f,hfl,h|h⟩|⟨ev,kv,he,hkv,h⟩|h|⟨x,hx,h⟩ <;>
    simp_all [String.ext_iff, envLine]

theorem not_mem_genLines_stderr_key (c : ServiceConfig) (hf : c.log_file = none)
    (v : String) : "StandardError=" ++ v ∉ genLines c := by
  intro hmem
  rcases mem_genLines_cases c _ hmem with
    h|h|⟨a,ha,hane,h⟩|h|h|⟨x,hx,h⟩|⟨x,hx,h⟩|⟨x,hx,h⟩|⟨x,hx,h⟩|⟨m,hm,h⟩|h|⟨f,hfl,h|h⟩|⟨ev,kv,he,hkv,h⟩|h|⟨x,hx,h⟩ <;>
    simp_all [String.ext_iff, envLine]

theorem not_mem_genLines_after (c : ServiceConfig)
    (hf : c.after = none ∨ c.after = some []) (v : String) :
    "After=" ++ v ∉ genLines c := by
  intro hmem
  rcases mem_genLines_cases c _ hmem with
    h|h|⟨a,ha,hane,h⟩|h|h|⟨x,hx,h⟩|⟨x,hx,h⟩|⟨x,hx,h⟩|⟨x,hx,h⟩|⟨m,hm,h⟩|h|⟨f,hfl,h|h⟩|⟨ev,kv,he,hkv,h⟩|h|⟨x,hx,h⟩ <;>
    rcases hf with hf | hf <;>
    simp_all [String.ext_iff, envLine]

theorem not_mem_genLines_env (c : ServiceConfig) (hf : c.environment = none)
    (v : String) : "Environment=" ++ v ∉ genLines c := by
  intro hmem
  rcases mem_genLines_cases c _ hmem with
    h|h|⟨a,ha,hane,h⟩|h|h|⟨x,hx,h⟩|⟨x,hx,h⟩|⟨x,hx,h⟩|⟨x,hx,h⟩|⟨m,hm,h⟩|h|⟨f,hfl,h|h⟩|⟨ev,kv,he,hkv,h⟩|h|⟨x,hx,h⟩ <;>
    simp_all [String.ext_iff, envLine]

/-- The full StandardError=inherit line is absent when no log file is
set. -/
theorem not_mem_genLines_stderr (c : ServiceConfig) (hf : c.log_file = none) :
    "StandardError=inherit" ∉ genLines c := by
  intro hmem
  rcases mem_genLines_cases c _ hmem with
    h|h|⟨a,ha,hane,h⟩|h|h|⟨x,hx,h⟩|⟨x,hx,h⟩|⟨x,hx,h⟩|⟨x,hx,h⟩|⟨m,hm,h⟩|h|⟨f,hfl,h|h⟩|⟨ev,kv,he,hkv,h⟩|h|⟨x,hx,h⟩ <;>
    simp_all [String.ext_iff, envLine]

/-- A configuration whose description smuggles a `User=` line into the
descriptor through an embedded newline. -/
def injectionCfg : ServiceConfig :=
  ServiceConfig.new "myapp" "/usr/bin/myapp" "App\nUser=evil"

/-- C6 counterexample: as stated — for every configuration — the claim
fails: `injectionCfg` has `user = none`, yet its descriptor contains the
line `User=evil`, injected by the newline inside the description. -/
theorem optional_absent_line_cex :
    injectionCfg.user = none
    ∧ hasLine ((SystemdService.new injectionCfg).generate) "User=evil" :=
  ⟨rfl, by decide⟩

/-- C6 (amended): restricted to newline-free configuration values (an
embedded newline can smuggle arbitrary lines into the text, see the
counterexample), an unset optional field contributes no line: no
WorkingDirectory=, User=, Group=, Restart=, RestartSec=, WantedBy=,
StandardOutput=, StandardError=, After= or Environment= line appears for
the respective unset field. -/
theorem optional_absent_no_line (c : ServiceConfig) (h : noNewlines c = true) :
    (c.working_directory = none →
        ∀ v, ¬ hasLine ((SystemdService.new c).generate) ("WorkingDirectory=" ++ v))
    ∧ (c.user = none →
        ∀ v, ¬ hasLine ((SystemdService.new c).generate) ("User=" ++ v))
    ∧ (c.group = none →
        ∀ v, ¬ hasLine ((SystemdService.new c).generate) ("Group=" ++ v))
    ∧ (c.restart = none →
        ∀ v, ¬ hasLine ((SystemdService.new c).generate) ("Restart=" ++ v))
    ∧ (c.restart_sec = none →
        ∀ v, ¬ hasLine ((SystemdService.new c).generate) ("RestartSec=" ++ v))
    ∧ (c.wanted_by = none →
        ∀ v, ¬ hasLine ((SystemdService.new c).generate) ("WantedBy=" ++ v))
    ∧ (c.log_file = none →
        (∀ v, ¬ hasLine ((SystemdService.new c).generate) ("StandardOutput=" ++ v))
        ∧ (∀ v, ¬ hasLine ((SystemdService.new c).generate) ("StandardError=" ++ v)))
    ∧ (c.after = none →
        ∀ v, ¬ hasLine ((SystemdService.new c).generate) ("After=" ++ v))
    ∧ (c.environment = none →
        ∀ v, ¬ hasLine ((SystemdService.new c).generate) ("Environment=" ++ v)) := by
  refine ⟨?_, ?_, ?_, ?_, ?_, ?_, ?_, ?_, ?_⟩
  · intro hf v
    exact not_hasLine_all c h _ (not_mem_genLines_wd c hf v) (by simp [String.ext_iff])
  · intro hf v
    exact not_hasLine_all c h _ (not_mem_genLines_user c hf v) (by simp [String.ext_iff])
  · intro hf v
    exact not_hasLine_all c h _ (not_mem_genLines_group c hf v) (by simp [String.ext_iff])
  · intro hf v
    exact not_hasLine_all c h _ (not_mem_genLines_restart c hf v) (by simp [String.ext_iff])
  · intro hf v
    exact not_hasLine_all c h _ (not_mem_genLines_sec c hf v) (by simp [String.ext_iff])
  · intro hf v
    exact not_hasLine_all c h _ (not_mem_genLines_wanted c hf v) (by simp [String.ext_iff])
  · intro hf
    refine ⟨?_, ?_⟩
    · intro v
      exact not_hasLine_all c h _ (not_mem_genLines_stdout c hf v) (by simp [String.ext_iff])
    · intro v
      exact not_hasLine_all c h _ (not_mem_genLines_stderr_key c hf v) (by simp [String.ext_iff])
  · intro hf v
    exact not_hasLine_all c h _ (not_mem_genLines_after c (Or.inl hf) v) (by simp [String.ext_iff])
  · intro hf v
    exact not_hasLine_all c h _ (not_mem_genLines_env c hf v) (by simp [String.ext_iff])

/-- The minimal configuration used by several witnesses. -/
def minimalCfg : ServiceConfig :=
  ServiceConfig.new "myapp" "/usr/local/bin/myapp" "My App"

theorem optional_absent_no_line_witness :
    noNewlines minimalCfg = true
    ∧ minimalCfg.user = none
    ∧ ¬ hasLine ((SystemdService.new minimalCfg).generate) ("User=" ++ "bob") :=
  ⟨by decide, rfl, (optional_absent_no_line minimalCfg (by decide)).2.1 rfl "bob"⟩

/-- A configuration whose description smuggles a `StandardError=inherit`
line in although no log file is set. -/
def injectionCfg2 : ServiceConfig :=
  ServiceConfig.new "myapp" "/usr/bin/myapp" "App\nStandardError=inherit"

/-- C7 counterexample: as stated — for every configuration — the
if-and-only-if fails: `injectionCfg2` has no log file set, yet its
descriptor contains a `StandardError=inherit` line, injected by the
newline inside the description. -/
theorem log_pairing_cex :
    injectionCfg2.log_file = none
    ∧ hasLine ((SystemdService.new injectionCfg2).generate) "StandardError=inherit" :=
  ⟨rfl, by decide⟩

/-- C7 (amended): restricted to newline-free configuration values, the
descriptor contains a StandardError=inherit line iff a log file path is
set, and when it is set the descriptor also contains the
StandardOutput=append:<path> line. -/
theorem log_file_pairing (c : ServiceConfig) (h : noNewlines c = true) :
    (hasLine ((SystemdService.new c).generate) "StandardError=inherit" ↔ c.log_file ≠ none)
    ∧ (∀ f, c.log_file = some f →
        hasLine ((SystemdService.new c).generate) ("StandardOutput=append:" ++ f)) := by
  have h' := h
  simp only [noNewlines, Bool.and_eq_true] at h'
  obtain ⟨⟨⟨⟨⟨⟨⟨⟨⟨hd, hex⟩, hwd⟩, hu⟩, hg⟩, hr⟩, hwb⟩, hlf⟩, haf⟩, henv⟩ := h'
  constructor
  · constructor
    · intro hline hnone
      exact not_hasLine_all c h _ (not_mem_genLines_stderr c hnone) (by decide) hline
    · intro hne
      rcases Option.ne_none_iff_exists.mp hne with ⟨f, hf⟩
      refine hasLine_of_mem_genLines _ _ (by decide) ?_
      simp [genLines, logLines, ← hf]
  · intro f hf
    have hnl : '\n' ∉ f.data := by
      rw [hf] at hlf
      exact (nlFree_iff f).mp hlf
    refine hasLine_of_mem_genLines _ _ (nl_notin_append (by decide) hnl) ?_
    simp [genLines, logLines, hf]

/-- A configuration with a log file, for the C7 witness. -/
def logCfg : ServiceConfig :=
  (ServiceConfig.new "myapp" "/usr/local/bin/myapp" "My App").with_log_file "/var/log/app.log"

theorem log_file_pairing_witness :
    noNewlines logCfg = true
    ∧ logCfg.log_file = some "/var/log/app.log"
    ∧ hasLine ((SystemdService.new logCfg).generate)
        ("StandardOutput=append:" ++ "/var/log/app.log") :=
  ⟨by decide, rfl, (log_file_pairing logCfg (by decide)).2 "/var/log/app.log" rfl⟩

/-- A configuration with a newline inside an `after` entry: the joined
"line" the claim promises is then not a line of the text at all. -/
def afterInjectionCfg : ServiceConfig :=
  (ServiceConfig.new "myapp" "/usr/bin/myapp" "App").with_after ["net\ntarget"]

/-- C8 counterexample: as stated — for every configuration — the claim
fails: with the single entry "net\ntarget", the space-joined text
`After=net\ntarget` is not a line of the descriptor (the embedded
newline splits it). -/
theorem order_cex :
    afterInjectionCfg.after = some ["net\ntarget"]
    ∧ ¬ hasLine ((SystemdService.new afterInjectionCfg).generate)
        ("After=" ++ String.intercalate " " ["net\ntarget"]) :=
  ⟨rfl, by decide⟩

/-- C8 (amended): restricted to newline-free configuration values: a
non-empty `after` sequence yields exactly one After= line whose content
is the entries space-joined in input order (never sorted or
deduplicated); an unset or empty `after` yields no After= line; and the
environment pairs appear as one quoted Environment="KEY=VALUE" line per
pair, consecutively and in exactly the input order. -/
theorem after_env_order (c : ServiceConfig) (h : noNewlines c = true) :
    (∀ a, c.after = some a → a ≠ [] →
        hasLine ((SystemdService.new c).generate)
          ("After=" ++ String.intercalate " " a)
        ∧ (∀ v, hasLine ((SystemdService.new c).generate) ("After=" ++ v) →
            v = String.intercalate " " a))
    ∧ ((c.after = none ∨ c.after = some []) →
        ∀ v, ¬ hasLine ((SystemdService.new c).generate) ("After=" ++ v))
    ∧ (∀ e, c.environment = some e →
        ∃ pre post, descriptorLines ((SystemdService.new c).generate)
          = pre ++ e.map envLine ++ post) := by
  have h' := h
  simp only [noNewlines, Bool.and_eq_true] at h'
  obtain ⟨⟨⟨⟨⟨⟨⟨⟨⟨hd, hex⟩, hwd⟩, hu⟩, hg⟩, hr⟩, hwb⟩, hlf⟩, haf⟩, henv⟩ := h'
  refine ⟨?_, ?_, ?_⟩
  · intro a ha hane
    have hentries : ∀ x ∈ a, '\n' ∉ x.data := by
      rw [ha] at haf
      intro x hx
      exact (nlFree_iff x).mp (List.all_eq_true.mp haf x hx)
    have hae : a.isEmpty = false := by simp [hane]
    constructor
    · refine hasLine_of_mem_genLines _ _
        (nl_notin_append (by decide) (intercalate_nlFree " " (by decide) a hentries)) ?_
      simp [genLines, afterLines, ha, hae]
    · intro v hline
      unfold hasLine at hline
      rw [descriptorLines_generate c h, List.mem_append] at hline
      rcases hline with hmem | hmem
      · rcases mem_genLines_cases c _ hmem with
          hq|hq|⟨a2,ha2,hane2,hq⟩|hq|hq|⟨x,hx,hq⟩|⟨x,hx,hq⟩|⟨x,hx,hq⟩|⟨x,hx,hq⟩|⟨m,hm,hq⟩|hq|⟨f,hfl,hq|hq⟩|⟨ev,kv,he,hkv,hq⟩|hq|⟨x,hx,hq⟩ <;>
          simp_all [String.ext_iff, envLine]
      · rw [List.mem_singleton] at hmem
        simp [String.ext_iff] at hmem
  · intro hf v
    exact not_hasLine_all c h _ (not_mem_genLines_after c hf v) (by simp [String.ext_iff])
  · intro e he
    rw [show descriptorLines ((SystemdService.new c).generate) = genLines c ++ [""] from
      descriptorLines_generate c h]
    by_cases hee : e.isEmpty
    · refine ⟨genLines c, [""], ?_⟩
      have : e = [] := by simpa using hee
      subst this
      simp
    · refine ⟨["[Unit]", "Description=" ++ c.description] ++ afterLines c.after
          ++ ["", "[Service]"] ++ optLine "WorkingDirectory=" c.working_directory
          ++ optLine "User=" c.user ++ optLine "Group=" c.group
          ++ optLine "Restart=" c.restart ++ secLines c.restart_sec
          ++ ["ExecStart=" ++ c.exec_start] ++ logLines c.log_file,
        ["", "[Install]"] ++ optLine "WantedBy=" c.wanted_by ++ [""], ?_⟩
      have hee' : e.isEmpty = false := by
        cases hq : e.isEmpty
        · rfl
        · exact absurd hq hee
      simp [genLines, envLines, he, hee', List.append_assoc]

/-- A configuration with dependencies and environment, for the C8
witness. -/
def fullCfg : ServiceConfig :=
  ((ServiceConfig.new "myapp" "/usr/local/bin/myapp" "My App").with_after
      ["network.target", "postgresql.service"]).with_environment
    [("RUST_LOG", "info"), ("PORT", "8080")]

theorem after_env_order_witness :
    noNewlines fullCfg = true
    ∧ fullCfg.after = some ["network.target", "postgresql.service"]
    ∧ hasLine ((SystemdService.new fullCfg).generate)
        ("After=" ++ String.intercalate " " ["network.target", "postgresql.service"]) :=
  ⟨by decide, rfl,
    ((after_env_order fullCfg (by decide)).1 ["network.target", "postgresql.service"]
      rfl (by decide)).1⟩

end SystemdSvc
